import Mathlib

/-!
# Verification of the DNS failover service

Shallow embedding of the failover orchestrator (`handleDomainFailover`), the
ingress-rule read-modify-write transformations (`addTunnelRule` /
`removeTunnelRule`), the retrying HTTP client (`fetchWithRetry`) and the HTTP
trigger handler (`handler`), together with theorems settling the spec's claims.

Conventions of the embedding:
* Network effects are supplied by an oracle (`World`, or a `fetch` function),
  and the code's externally visible actions are collected in an explicit event
  trace, in the order the code performs them.
* JavaScript `%` on integers is truncated remainder, embedded as `Int.tmod`.
* JavaScript `findIndex` (−1 when absent) is embedded as `findIndexInt`.
* A JS value that may be `undefined` (an ingress rule's `hostname`) is an
  `Option`; JS string falsiness (`!rule.hostname`, true for `undefined` and
  `""`) is `hostnameFalsy`.
* A JS function that may `throw` is embedded with `Except String`.
-/

namespace DnsFailover

/-! ## Data model (interfaces `DomainConfig`, `DnsRecord`, ingress rules) -/

/-- `DomainConfig` from the source: one domain's failover configuration. -/
structure DomainConfig where
  domain : String
  zoneId : String
  serviceUrl : String
  tunnels : List String
deriving Repr, DecidableEq

/-- `DnsRecord` from the source: id and CNAME content of the domain's record. -/
structure DnsRecord where
  id : String
  content : String
deriving Repr, DecidableEq

/-- One entry of a tunnel configuration's `ingress` list.  `hostname` is
absent (`none`) on the fallback rule; `originRequest` is an opaque map never
inspected by the code, so it is not modelled. -/
structure IngressRule where
  hostname : Option String
  service : String
deriving Repr, DecidableEq

/-- JS falsiness of the optional `hostname` field: `!rule.hostname` is true
when the field is `undefined` or the empty string. -/
def hostnameFalsy : Option String → Bool
  | none => true
  | some s => s = ""

/-- The check `ingress.some(rule => !rule.hostname && rule.service === 'http_status:404')`
shared by `addTunnelRule` and `removeTunnelRule`. -/
def hasFallback (ingress : List IngressRule) : Bool :=
  ingress.any fun r => hostnameFalsy r.hostname && r.service == "http_status:404"

/-- The fallback rule `{ service: 'http_status:404' }` appended when absent. -/
def fallbackRule : IngressRule := { hostname := none, service := "http_status:404" }

/-- The ingress transformation performed by `addTunnelRule` between the read
and the write: drop any rule whose `hostname` strictly equals `domain`
(`undefined !== domain` keeps the fallback), `unshift` the new rule, and append
the fallback rule if `hasFallback` fails. -/
def addTunnelRuleIngress (domain serviceUrl : String) (ingress : List IngressRule) :
    List IngressRule :=
  let filtered := ingress.filter fun r => !(r.hostname == some domain)
  let withNew := { hostname := some domain, service := serviceUrl : IngressRule } :: filtered
  if hasFallback withNew then withNew else withNew ++ [fallbackRule]

/-- The ingress transformation performed by `removeTunnelRule` between the read
and the write: drop any rule whose `hostname` strictly equals `domain`, and
append the fallback rule if `hasFallback` fails. -/
def removeTunnelRuleIngress (domain : String) (ingress : List IngressRule) :
    List IngressRule :=
  let filtered := ingress.filter fun r => !(r.hostname == some domain)
  if hasFallback filtered then filtered else filtered ++ [fallbackRule]

/-- The property claimed after every mutation: exactly one rule with no
`hostname`, and the last element has no `hostname`. -/
def fallbackInvariant (ingress : List IngressRule) : Bool :=
  (ingress.countP fun r => r.hostname == none) == 1 &&
    match ingress.getLast? with
    | some r => r.hostname == none
    | none => false

/-! ## `fetchWithRetry` — the retrying HTTP client -/

/-- What one `fetch` call yields: a response (identified by its status) or a
transport-level error (the `catch` branch). -/
inductive FetchOutcome where
  | resp (status : Nat)
  | err (msg : String)
deriving Repr, DecidableEq

/-- Externally visible steps of `fetchWithRetry`: a `fetch` call for a given
attempt number, and a backoff wait of a given number of milliseconds. -/
inductive RetryEvent where
  | call (attempt : Nat)
  | delay (ms : Nat)
deriving Repr, DecidableEq

/-- The loop `for (attempt = 1; attempt <= maxRetries; attempt++)` of
`fetchWithRetry`, with the attempt counter explicit and the remaining
iterations as fuel.  Running out of fuel is falling out of the loop, which
throws `'Failed to fetch after retries'`. -/
def fetchRetryLoop (fetch : Nat → FetchOutcome) (maxRetries : Nat) :
    Nat → Nat → List RetryEvent × Except String Nat
  | 0, _ => ([], .error "Failed to fetch after retries")
  | fuel + 1, attempt =>
    match fetch attempt with
    | .resp status =>
      if status = 429 ∧ attempt < maxRetries then
        let rest := fetchRetryLoop fetch maxRetries fuel (attempt + 1)
        (.call attempt :: .delay (2 ^ attempt * 1000) :: rest.1, rest.2)
      else
        ([.call attempt], .ok status)
    | .err msg =>
      if attempt = maxRetries then
        ([.call attempt], .error msg)
      else
        let rest := fetchRetryLoop fetch maxRetries fuel (attempt + 1)
        (.call attempt :: rest.1, rest.2)

/-- `fetchWithRetry(url, options, maxRetries = 3)`: the trace of calls and
backoff waits, and either the returned response's status or the thrown error. -/
def fetchWithRetry (fetch : Nat → FetchOutcome) (maxRetries : Nat) :
    List RetryEvent × Except String Nat :=
  fetchRetryLoop fetch maxRetries maxRetries 1

/-! ## Round-robin tunnel scan inside `handleDomainFailover` -/

/-- The loop `for (i = 1; i <= tunnels.length; i++)` selecting the next healthy
tunnel: at counter `i` it checks index `(currentTunnelIndex + i) % n` and stops
at the first healthy one.  Returns the indices checked, in order, and the
selected index (`none` embeds `nextTunnelIndex === -1`). -/
def scanFrom (healthy : Nat → Bool) (k : Int) (n : Nat) :
    Nat → Nat → List Nat × Option Nat
  | 0, _ => ([], none)
  | fuel + 1, i =>
    let idx := ((k + (i : Int)).tmod (n : Int)).toNat
    if healthy idx then
      ([idx], some idx)
    else
      let rest := scanFrom healthy k n fuel (i + 1)
      (idx :: rest.1, rest.2)

/-- The whole scan: `n` iterations starting at loop counter `i = 1`. -/
def scanTunnels (healthy : Nat → Bool) (k : Int) (n : Nat) : List Nat × Option Nat :=
  scanFrom healthy k n n 1

/-- The index sequence the scan walks: starting from the integer `base`
(`currentTunnelIndex + i` for the first checked counter `i`), the indices
`base % n, (base+1) % n, …` for `fuel` steps. -/
def scanOrder (n : Nat) : Int → Nat → List Nat
  | _, 0 => []
  | base, fuel + 1 => (base.tmod (n : Int)).toNat :: scanOrder n (base + 1) fuel

/-! ## `handleDomainFailover` — the per-domain orchestrator -/

/-- Externally visible actions of one domain's reconciliation pass, in program
order: a Telegram notification, a tunnel health check, and the three
control-plane mutations. -/
inductive Event where
  | notify (msg : String)
  | healthCheck (tunnelId : String)
  | addRule (tunnelId domain : String)
  | updateDns (recordId content : String)
  | removeRule (tunnelId domain : String)
deriving Repr, DecidableEq

/-- Terminal state of one domain's pass. -/
inductive Outcome where
  | unchanged
  | completed (toCname : String)
  | aborted
  | failed (err : String)
deriving Repr, DecidableEq

/-- Oracle for the network effects one domain's pass consumes:
the reachability probe result, the DNS-record read (which may throw), each
tunnel's health-check boolean (`checkTunnelHealth` never throws), and whether
each of the three mutations succeeds or throws. -/
structure World where
  reachable : Bool
  dnsRecord : Except String DnsRecord
  tunnelHealthy : String → Bool
  addRuleResult : Except String Unit
  updateDnsResult : Except String Unit
  removeRuleResult : Except String Unit

/-- JS `Array.prototype.findIndex`: the first index satisfying the predicate,
or `-1` when none does. -/
def findIndexInt (l : List String) (target : String) : Int :=
  match l.findIdx? fun c => c == target with
  | some i => (i : Int)
  | none => -1

/-- `tunnels.map(tunnelId => tunnelId + '.cfargotunnel.com')`. -/
def tunnelCnames (config : DomainConfig) : List String :=
  config.tunnels.map fun tid => tid ++ ".cfargotunnel.com"

/-- `currentTunnelIndex`: position of the DNS record's content among the
derived CNAMEs, or `-1`. -/
def currentTunnelIndex (config : DomainConfig) (rec : DnsRecord) : Int :=
  findIndexInt (tunnelCnames config) rec.content

/-- Health of the tunnel at a given index of `config.tunnels`, as checked by
the scan loop (`tunnels[checkIndex]`). -/
def healthyAt (w : World) (tunnels : List String) (idx : Nat) : Bool :=
  w.tunnelHealthy (tunnels.getD idx "")

/-- The notification sent as soon as the domain is found unreachable. -/
def initiatingMsg (domain : String) : String :=
  "Domain " ++ domain ++ " is unreachable. Initiating failover."

/-- The notification sent when no healthy tunnel is found. -/
def abortedMsg (domain : String) : String :=
  "No healthy tunnels found for domain " ++ domain ++ ". Aborting failover."

/-- The notification sent by the `catch` block around steps 2–4. -/
def failedMsg (domain err : String) : String :=
  "Failover process failed for " ++ domain ++ ": " ++ err

/-- The notification sent after all mutations succeed. -/
def completedMsg (domain toCname : String) : String :=
  "Failover completed for " ++ domain ++ " to " ++ toCname

/-- The health-check events emitted by the scan, one per checked index, in
scan order. -/
def checkedEvents (config : DomainConfig) (w : World) (rec : DnsRecord) : List Event :=
  (scanTunnels (healthyAt w config.tunnels) (currentTunnelIndex config rec)
      config.tunnels.length).1.map
    fun idx => Event.healthCheck (config.tunnels.getD idx "")

/-- One domain's reconciliation pass (`handleDomainFailover`): the trace of
externally visible actions, in program order, and the terminal outcome.
Mirrors the source: return on reachable; notify "initiating"; read the DNS
record (throw → `catch` → `Failed` notification); scan for the next healthy
tunnel; on none abort with a notification; otherwise add the rule on the
selected tunnel, update DNS, remove the rule from the previous tunnel when
`currentTunnelIndex !== -1`, and notify completion.  A mutation event is
recorded when the corresponding call succeeds; a throw diverts to the `catch`
block's `Failed` notification. -/
def handleDomainFailover (config : DomainConfig) (w : World) : List Event × Outcome :=
  if w.reachable then
    ([], .unchanged)
  else
    match w.dnsRecord with
    | .error e =>
      ([.notify (initiatingMsg config.domain), .notify (failedMsg config.domain e)], .failed e)
    | .ok rec =>
      match (scanTunnels (healthyAt w config.tunnels) (currentTunnelIndex config rec)
          config.tunnels.length).2 with
      | none =>
        (Event.notify (initiatingMsg config.domain) :: checkedEvents config w rec ++
          [.notify (abortedMsg config.domain)], .aborted)
      | some idx =>
        let nextTunnelId := config.tunnels.getD idx ""
        let nextTunnelCname := (tunnelCnames config).getD idx ""
        let ev0 := Event.notify (initiatingMsg config.domain) :: checkedEvents config w rec
        match w.addRuleResult with
        | .error e => (ev0 ++ [.notify (failedMsg config.domain e)], .failed e)
        | .ok _ =>
          let ev1 := ev0 ++ [Event.addRule nextTunnelId config.domain]
          match w.updateDnsResult with
          | .error e => (ev1 ++ [.notify (failedMsg config.domain e)], .failed e)
          | .ok _ =>
            let ev2 := ev1 ++ [Event.updateDns rec.id nextTunnelCname]
            if currentTunnelIndex config rec == -1 then
              (ev2 ++ [.notify (completedMsg config.domain nextTunnelCname)],
                .completed nextTunnelCname)
            else
              let currentTunnelId := config.tunnels.getD (currentTunnelIndex config rec).toNat ""
              match w.removeRuleResult with
              | .error e => (ev2 ++ [.notify (failedMsg config.domain e)], .failed e)
              | .ok _ =>
                (ev2 ++ [Event.removeRule currentTunnelId config.domain,
                  .notify (completedMsg config.domain nextTunnelCname)],
                  .completed nextTunnelCname)

/-- Events that are Telegram notifications. -/
def isNotify : Event → Bool
  | .notify _ => true
  | _ => false

/-- Events that mutate control-plane state (`addTunnelRule`,
`updateDnsRecord`, `removeTunnelRule`). -/
def isMutation : Event → Bool
  | .addRule _ _ => true
  | .updateDns _ _ => true
  | .removeRule _ _ => true
  | _ => false

/-- Events that are tunnel health checks. -/
def isHealthCheck : Event → Bool
  | .healthCheck _ => true
  | _ => false

/-! ## `handler` — the HTTP trigger endpoint -/

/-- The HTTP response the trigger endpoint produces. -/
structure HttpResponse where
  status : Nat
  body : String
deriving Repr, DecidableEq

/-- The synchronous prefix of the background pass started by the handler:
`handleFailover` begins with `JSON.parse(env.DOMAINS_CONFIG)`.  `JSON.parse`
is a platform primitive, so its result is an oracle input: either the parsed
`DomainConfig` array or the thrown parse error.  Because `handleFailover` is
an `async` function, a throw inside it rejects the returned promise instead
of propagating synchronously to the caller. -/
def handleFailoverParse (parsedConfig : Except String (List DomainConfig)) :
    Except String Unit :=
  parsedConfig.map fun _ => ()

/-- The HTTP trigger `handler`: on `POST` it builds the environment, calls
`handleFailover(env)` without awaiting it and attaches
`.catch(error => console.error('Failover process failed:', error))`, then
returns `200 'Failover process initiated'`.  By JS async semantics the
detached promise's rejection (e.g. a `DOMAINS_CONFIG` parse failure) is
consumed by that `.catch`; the surrounding `try` observes only synchronous
throws, so its `500` branch is not reached by a parse failure.  The second
component is the background `console.error` log. -/
def handler (method : String) (parsedConfig : Except String (List DomainConfig)) :
    HttpResponse × List String :=
  if method == "POST" then
    let backgroundLog :=
      match handleFailoverParse parsedConfig with
      | .error e => ["Failover process failed: " ++ e]
      | .ok _ => []
    ({ status := 200, body := "Failover process initiated" }, backgroundLog)
  else
    ({ status := 200, body := "Use POST to trigger failover check" }, [])

/-- Retry events that are `fetch` calls. -/
def isCall : RetryEvent → Bool
  | .call _ => true
  | _ => false

/-- Retry events that are backoff waits. -/
def isDelay : RetryEvent → Bool
  | .delay _ => true
  | _ => false

/-! ## Concrete fixtures used by witnesses and counterexamples -/

/-- The spec's scenario configuration: `a.example.com` with tunnels
`[T1, T2, T3]`. -/
def exampleConfig : DomainConfig :=
  { domain := "a.example.com", zoneId := "zone1", serviceUrl := "http://localhost:8080",
    tunnels := ["T1", "T2", "T3"] }

/-- The scenario DNS record: content matches `T1`'s derived CNAME. -/
def exampleRecord : DnsRecord := { id := "rid1", content := "T1.cfargotunnel.com" }

/-- Scenario world: domain unreachable, record read succeeds, only `T3`
healthy, every mutation succeeds. -/
def exampleWorld : World :=
  { reachable := false, dnsRecord := .ok exampleRecord,
    tunnelHealthy := fun t => t == "T3",
    addRuleResult := .ok (), updateDnsResult := .ok (), removeRuleResult := .ok () }

/-- Scenario world with the reachability probe succeeding. -/
def exampleReachableWorld : World := { exampleWorld with reachable := true }

/-- Scenario world in which every tunnel health check returns false. -/
def exampleAllDownWorld : World := { exampleWorld with tunnelHealthy := fun _ => false }

/-- The scenario configuration with an empty tunnel list. -/
def emptyTunnelsConfig : DomainConfig := { exampleConfig with tunnels := [] }

/-- A transport that is rate-limited on the first two attempts and
succeeds on the third. -/
def exampleFetch : Nat → FetchOutcome := fun a => if a ≤ 2 then .resp 429 else .resp 200

/-- A transport that is rate-limited on every attempt. -/
def allRateLimitedFetch : Nat → FetchOutcome := fun _ => .resp 429

/-! ## Helper lemmas -/

/-- `checkedEvents` consists of health-check events only, so filtering it with
any predicate that rejects health checks yields the empty list. -/
theorem filter_checkedEvents_eq_nil (p : Event → Bool)
    (hp : ∀ t, p (Event.healthCheck t) = false) (config : DomainConfig) (w : World)
    (rec : DnsRecord) : (checkedEvents config w rec).filter p = [] := by
  rw [checkedEvents, List.filter_map]
  have : ∀ l : List Nat,
      l.filter (p ∘ fun idx => Event.healthCheck (config.tunnels.getD idx "")) = [] := by
    intro l
    rw [List.filter_eq_nil_iff]
    intro a _
    simp [Function.comp, hp]
  rw [this]
  rfl

/-! ## C7 — reachable domains: no mutations, no notifications -/

/-- C7: for every domain whose reachability check returns true, the pass
performs no control-plane mutation and emits no notification: the trace is
empty and the outcome is `Unchanged`. -/
theorem c7_reachable_quiet (config : DomainConfig) (w : World)
    (h : w.reachable = true) :
    handleDomainFailover config w = ([], .unchanged) := by
  simp [handleDomainFailover, h]

/-- C7 witness: the scenario configuration with a reachable probe. -/
theorem c7_witness :
    handleDomainFailover exampleConfig exampleReachableWorld = ([], .unchanged) :=
  c7_reachable_quiet exampleConfig exampleReachableWorld rfl

/-! ## C10 — empty tunnel list: zero health checks, no mutation, aborted -/

/-- C10: for a `DomainConfig` whose `tunnels` list is empty, an unreachable
domain's pass runs the scan loop zero times (the loop bound is
`tunnels.length = 0`, so the wrap-around modulo is never evaluated), performs
no health check and no mutation, and terminates in the aborted path: the
trace is exactly the initiating and aborting notifications. -/
theorem c10_empty_tunnels_aborts (config : DomainConfig) (w : World) (rec : DnsRecord)
    (ht : config.tunnels = []) (hr : w.reachable = false)
    (hd : w.dnsRecord = .ok rec) :
    handleDomainFailover config w =
      ([.notify (initiatingMsg config.domain), .notify (abortedMsg config.domain)],
        .aborted) := by
  simp [handleDomainFailover, hr, hd, ht, scanTunnels, scanFrom, checkedEvents]

/-- C10 witness: the scenario with an empty tunnel list. -/
theorem c10_witness :
    handleDomainFailover emptyTunnelsConfig exampleWorld =
      ([.notify (initiatingMsg "a.example.com"), .notify (abortedMsg "a.example.com")],
        .aborted) :=
  c10_empty_tunnels_aborts emptyTunnelsConfig exampleWorld exampleRecord rfl rfl rfl

/-! ## C3 — parse failure in the POST trigger -/

/-- C3 counterexample: a POST trigger whose `DOMAINS_CONFIG` fails to parse is
answered with status 200 and the fixed body `'Failover process initiated'`,
not with a 500 carrying the error text: the parse runs inside the detached
`async` pass, whose rejection is consumed by `.catch`. -/
theorem c3_counterexample :
    (handler "POST" (.error "Unexpected token u in JSON at position 0")).1.status = 200 ∧
    (handler "POST" (.error "Unexpected token u in JSON at position 0")).1.status ≠ 500 ∧
    (handler "POST" (.error "Unexpected token u in JSON at position 0")).1.body =
      "Failover process initiated" := by
  refine ⟨rfl, by decide, rfl⟩

/-- C3 amended: for every parse error, the POST trigger still answers
`200 'Failover process initiated'`; the parse failure is not guarded
synchronously but surfaces only in the background `console.error` log. -/
theorem c3_parse_failure_returns_200 (e : String) :
    handler "POST" (.error e) =
      ({ status := 200, body := "Failover process initiated" },
        ["Failover process failed: " ++ e]) := by
  rfl

/-! ## C8 — removeRule's ingress transformation is idempotent -/

/-- C8: for every ingress list and every domain, applying `removeTunnelRule`'s
read-modify-write ingress transformation twice yields the same list as
applying it once. -/
theorem c8_removeRule_idempotent (domain : String) (ingress : List IngressRule) :
    removeTunnelRuleIngress domain (removeTunnelRuleIngress domain ingress) =
      removeTunnelRuleIngress domain ingress := by
  rw [removeTunnelRuleIngress, removeTunnelRuleIngress]
  by_cases h : hasFallback (ingress.filter fun r => !(r.hostname == some domain)) = true
  · rw [if_pos h, List.filter_filter]
    have hff : (ingress.filter fun r =>
        (!(r.hostname == some domain)) && !(r.hostname == some domain)) =
        ingress.filter fun r => !(r.hostname == some domain) := by
      apply List.filter_congr
      intro a _
      exact Bool.and_self _
    rw [hff, if_pos h]
  · rw [if_neg h, List.filter_append, List.filter_filter]
    have hff : (ingress.filter fun r =>
        (!(r.hostname == some domain)) && !(r.hostname == some domain)) =
        ingress.filter fun r => !(r.hostname == some domain) := by
      apply List.filter_congr
      intro a _
      exact Bool.and_self _
    rw [hff]
    have hfb : ([fallbackRule].filter fun r => !(r.hostname == some domain)) =
        [fallbackRule] := by
      simp [fallbackRule]
    rw [hfb]
    have hhf : hasFallback
        ((ingress.filter fun r => !(r.hostname == some domain)) ++ [fallbackRule]) = true := by
      simp [hasFallback, List.any_append, fallbackRule, hostnameFalsy]
    rw [if_pos hhf]

/-! ## C2 — the fallback-rule invariant after addRule / removeRule -/

/-- C2 counterexample: the claim quantifies over every input ingress list, but
the transformations only append a fallback when none exists — they never move
an existing fallback to the end.  On the input
`[{service: 'http_status:404'}, {hostname: 'b', service: 's'}]` (fallback
first), `removeTunnelRule` for domain `'a'` keeps the list unchanged, so the
last element still has a hostname; `addTunnelRule` likewise leaves the
fallback in the middle. -/
theorem c2_counterexample :
    fallbackInvariant (removeTunnelRuleIngress "a"
      [{ hostname := none, service := "http_status:404" },
       { hostname := some "b", service := "s" }]) = false ∧
    fallbackInvariant (addTunnelRuleIngress "a" "svc"
      [{ hostname := none, service := "http_status:404" },
       { hostname := some "b", service := "s" }]) = false := by
  refine ⟨by decide, by decide⟩

/-- Auxiliary: a list whose members all have a hostname, followed by the
fallback, satisfies the claimed invariant. -/
theorem fallbackInvariant_append (l : List IngressRule) (fb : IngressRule)
    (hh : fb.hostname = none) (hc : l.countP (fun r => r.hostname == none) = 0) :
    fallbackInvariant (l ++ [fb]) = true := by
  rw [fallbackInvariant]
  rw [List.getLast?_concat]
  simp [List.countP_append, hc, List.countP_cons, hh]

/-- C2 amended: if the input ingress list already satisfies the invariant in
the form the code maintains — the rules with a hostname followed by a single
trailing fallback rule `{service: 'http_status:404'}`, no other rule lacking a
hostname — then after `addTunnelRule`'s transformation, and likewise after
`removeTunnelRule`'s, the result again contains exactly one rule with no
hostname and that rule is the last element. -/
theorem c2_invariant_preserved (init : List IngressRule) (fb : IngressRule)
    (domain serviceUrl : String)
    (hh : fb.hostname = none) (hs : fb.service = "http_status:404")
    (hinit : init.countP (fun r => r.hostname == none) = 0) :
    fallbackInvariant (addTunnelRuleIngress domain serviceUrl (init ++ [fb])) = true ∧
    fallbackInvariant (removeTunnelRuleIngress domain (init ++ [fb])) = true := by
  have hpfb : (!(fb.hostname == some domain)) = true := by simp [hh]
  have hfilter : ((init ++ [fb]).filter fun r => !(r.hostname == some domain)) =
      (init.filter fun r => !(r.hostname == some domain)) ++ [fb] := by
    simp [List.filter_append, hpfb]
  have hfb : hasFallback ((init.filter fun r => !(r.hostname == some domain)) ++ [fb]) =
      true := by
    simp [hasFallback, List.any_append, hh, hs, hostnameFalsy]
  have hcount0 : ((init.filter fun r => !(r.hostname == some domain)).countP
      fun r => r.hostname == none) = 0 := by
    rw [List.countP_eq_zero] at hinit ⊢
    intro a ha
    exact hinit a (List.mem_filter.mp ha).1
  constructor
  · rw [addTunnelRuleIngress]
    rw [hfilter]
    have hfb2 : hasFallback
        ({ hostname := some domain, service := serviceUrl : IngressRule} ::
          ((init.filter fun r => !(r.hostname == some domain)) ++ [fb])) = true := by
      simp only [hasFallback, List.any_cons] at hfb ⊢
      rw [hfb]
      simp
    rw [if_pos hfb2]
    rw [show ({ hostname := some domain, service := serviceUrl : IngressRule} ::
        ((init.filter fun r => !(r.hostname == some domain)) ++ [fb])) =
        ({ hostname := some domain, service := serviceUrl : IngressRule} ::
          (init.filter fun r => !(r.hostname == some domain))) ++ [fb] from rfl]
    apply fallbackInvariant_append _ _ hh
    simp [List.countP_cons, hcount0]
  · rw [removeTunnelRuleIngress]
    rw [hfilter, if_pos hfb]
    exact fallbackInvariant_append _ _ hh hcount0

/-- C2 witness: a two-rule well-formed ingress (`x.example.org` rule plus the
trailing fallback). -/
theorem c2_witness :
    fallbackInvariant (addTunnelRuleIngress "a.example.com" "http://localhost:8080"
      ([{ hostname := some "x.example.org", service := "http://svc" }] ++
        [{ hostname := none, service := "http_status:404" }])) = true ∧
    fallbackInvariant (removeTunnelRuleIngress "a.example.com"
      ([{ hostname := some "x.example.org", service := "http://svc" }] ++
        [{ hostname := none, service := "http_status:404" }])) = true :=
  c2_invariant_preserved
    [{ hostname := some "x.example.org", service := "http://svc" }]
    { hostname := none, service := "http_status:404" }
    "a.example.com" "http://localhost:8080" rfl rfl (by decide)

/-! ## C5 — two rate-limited attempts then success -/

/-- C5: with `maxRetries = 3`, if the first two attempts return status 429 and
the third a non-429 status, `fetchWithRetry` performs exactly three calls with
backoff waits of 2000 ms then 4000 ms and returns the third response; and in
general any non-429 response is returned immediately with no further
attempt. -/
theorem c5_retry_scenario (fetch : Nat → FetchOutcome) (s : Nat)
    (h1 : fetch 1 = .resp 429) (h2 : fetch 2 = .resp 429) (h3 : fetch 3 = .resp s)
    (hs : s ≠ 429) :
    fetchWithRetry fetch 3 =
      ([.call 1, .delay 2000, .call 2, .delay 4000, .call 3], .ok s) ∧
    ∀ (g : Nat → FetchOutcome) (m a fuel t : Nat), g a = .resp t → t ≠ 429 →
      fetchRetryLoop g m (fuel + 1) a = ([.call a], .ok t) := by
  constructor
  · rw [fetchWithRetry]
    simp [fetchRetryLoop, h1, h2, h3, hs]
  · intro g m a fuel t hg ht
    simp [fetchRetryLoop, hg, ht]

/-- C5 witness: the 429-429-200 transport. -/
theorem c5_witness :
    fetchWithRetry exampleFetch 3 =
      ([.call 1, .delay 2000, .call 2, .delay 4000, .call 3], .ok 200) ∧
    ∀ (g : Nat → FetchOutcome) (m a fuel t : Nat), g a = .resp t → t ≠ 429 →
      fetchRetryLoop g m (fuel + 1) a = ([.call a], .ok t) :=
  c5_retry_scenario exampleFetch 200 rfl rfl rfl (by decide)

/-! ## C9 — every attempt rate-limited -/

/-- Auxiliary: if every attempt yields 429, the retry loop with `fuel`
remaining iterations at counter `attempt` (where `attempt + fuel = m + 1`)
performs `fuel` calls, `fuel - 1` waits, ends on the call of attempt `m`, and
returns the 429 response. -/
theorem fetchRetryLoop_allLimited (fetch : Nat → FetchOutcome) (m : Nat)
    (hall : ∀ a, fetch a = .resp 429) :
    ∀ fuel attempt, 1 ≤ fuel → attempt + fuel = m + 1 →
      (fetchRetryLoop fetch m fuel attempt).2 = .ok 429 ∧
      (fetchRetryLoop fetch m fuel attempt).1.countP isCall = fuel ∧
      (fetchRetryLoop fetch m fuel attempt).1.countP isDelay = fuel - 1 ∧
      (fetchRetryLoop fetch m fuel attempt).1.getLast? = some (.call m) := by
  intro fuel
  induction fuel with
  | zero => intro attempt h0 _; exact absurd h0 (by decide)
  | succ f ih =>
    intro attempt _ hsum
    by_cases hlt : attempt < m
    · have hf : 1 ≤ f := by omega
      have hrec := ih (attempt + 1) hf (by omega)
      simp only [fetchRetryLoop, hall attempt]
      rw [if_pos ⟨trivial, hlt⟩]
      obtain ⟨hres, hcalls, hdelays, hlast⟩ := hrec
      refine ⟨hres, ?_, ?_, ?_⟩
      · simp [List.countP_cons, isCall, isDelay, hcalls]
      · simp [List.countP_cons, isCall, isDelay, hdelays]
        omega
      · rw [List.getLast?_cons_cons]
        cases htr : (fetchRetryLoop fetch m f (attempt + 1)).1 with
        | nil =>
          rw [htr] at hcalls
          simp at hcalls
          omega
        | cons x xs =>
          rw [htr] at hlast
          rw [List.getLast?_cons_cons]
          exact hlast
    · have ham : attempt = m := by omega
      have hf0 : f = 0 := by omega
      subst hf0
      rw [ham]
      simp only [fetchRetryLoop, hall m]
      rw [if_neg (by simp : ¬(True ∧ m < m))]
      exact ⟨rfl, by simp [isCall], by simp [isDelay], rfl⟩

/-- C9: if every one of the `maxRetries` attempts yields a 429 response, the
client returns the final 429 as an ordinary response (no throw), performing
all `maxRetries` calls, waiting only after the `maxRetries - 1` non-final
attempts, and ending on the final call with no wait after it. -/
theorem c9_exhausted_returns_429 (fetch : Nat → FetchOutcome) (m : Nat)
    (hall : ∀ a, fetch a = .resp 429) (hm : 1 ≤ m) :
    (fetchWithRetry fetch m).2 = .ok 429 ∧
    (fetchWithRetry fetch m).1.countP isCall = m ∧
    (fetchWithRetry fetch m).1.countP isDelay = m - 1 ∧
    (fetchWithRetry fetch m).1.getLast? = some (.call m) :=
  fetchRetryLoop_allLimited fetch m hall m 1 hm (by omega)

/-- C9 witness: the always-429 transport at `maxRetries = 3`. -/
theorem c9_witness :
    (fetchWithRetry allRateLimitedFetch 3).2 = .ok 429 ∧
    (fetchWithRetry allRateLimitedFetch 3).1.countP isCall = 3 ∧
    (fetchWithRetry allRateLimitedFetch 3).1.countP isDelay = 2 ∧
    (fetchWithRetry allRateLimitedFetch 3).1.getLast? = some (.call 3) :=
  c9_exhausted_returns_429 allRateLimitedFetch 3 (fun _ => rfl) (by decide)

/-! ## C4 — round-robin scan order -/

/-- Head decomposition of a mapped range. -/
theorem range_map_succ_head {α : Type} (f : Nat → α) (fuel : Nat) :
    (List.range (fuel + 1)).map f = f 0 :: ((List.range fuel).map fun j => f (j + 1)) := by
  rw [List.range_succ_eq_map]
  simp [List.map_map, Function.comp, Nat.succ_eq_add_one]

/-- The scan loop at counter `i` with `fuel` iterations left walks exactly
`scanOrder n (k + i) fuel`: it checks its entries in order, stops at the
first healthy one, and selects it. -/
theorem scanFrom_eq_scanOrder (healthy : Nat → Bool) (k : Int) (n : Nat) :
    ∀ fuel i,
      scanFrom healthy k n fuel i =
        ((scanOrder n (k + (i : Int)) fuel).takeWhile (fun idx => !healthy idx) ++
          ((scanOrder n (k + (i : Int)) fuel).find? healthy).toList,
         (scanOrder n (k + (i : Int)) fuel).find? healthy) := by
  intro fuel
  induction fuel with
  | zero => intro i; rfl
  | succ f ih =>
    intro i
    have hbase : k + ((i : Int) + 1) = k + (i : Int) + 1 := by ring
    have hcast : ((i + 1 : Nat) : Int) = (i : Int) + 1 := by push_cast; ring
    have hih := ih (i + 1)
    rw [hcast, hbase] at hih
    by_cases h : healthy ((k + (i : Int)).tmod (n : Int)).toNat
    · simp [scanFrom, scanOrder, h]
    · simp [scanFrom, scanOrder, h, hih, List.cons_append]

/-- `scanOrder` written as the spec writes it: the `j`-th checked index is
`(base + j) % n`. -/
theorem scanOrder_eq_range_map (n : Nat) :
    ∀ (fuel : Nat) (base : Int),
      scanOrder n base fuel =
        (List.range fuel).map fun (j : Nat) => ((base + (j : Int)).tmod (n : Int)).toNat := by
  intro fuel
  induction fuel with
  | zero => intro base; rfl
  | succ f ih =>
    intro base
    rw [show scanOrder n base (f + 1) =
        (base.tmod (n : Int)).toNat :: scanOrder n (base + 1) f from rfl]
    rw [ih (base + 1)]
    rw [range_map_succ_head (fun (j : Nat) => ((base + (j : Int)).tmod (n : Int)).toNat) f]
    refine congrArg₂ List.cons (by norm_num) ?_
    apply List.map_congr_left
    intro a _
    have h1 : base + ((a : Int) + 1) = base + 1 + (a : Int) := by ring
    have h2 : ((a + 1 : Nat) : Int) = (a : Int) + 1 := by push_cast; ring
    rw [h2, h1]

/-- C4: for every health predicate, every `currentTunnelIndex = k` and every
tunnel count `n`, the scan checks exactly the indices
`(k+1)%n, (k+2)%n, …, (k+n)%n` in that order — the `j`-th checked index
(0-based) is `(k + j + 1) % n` — stopping at (and selecting) the first index
whose health check returns true. -/
theorem c4_scan_order (healthy : Nat → Bool) (k : Int) (n : Nat) :
    (scanTunnels healthy k n).2 =
      ((List.range n).map fun (j : Nat) =>
          ((k + (j : Int) + 1).tmod (n : Int)).toNat).find? healthy ∧
    (scanTunnels healthy k n).1 =
      ((List.range n).map fun (j : Nat) =>
          ((k + (j : Int) + 1).tmod (n : Int)).toNat).takeWhile
          (fun idx => !healthy idx) ++
        (((List.range n).map fun (j : Nat) =>
            ((k + (j : Int) + 1).tmod (n : Int)).toNat).find? healthy).toList := by
  have hlist : ((List.range n).map fun (j : Nat) =>
      ((k + 1 + (j : Int)).tmod (n : Int)).toNat) =
      ((List.range n).map fun (j : Nat) => ((k + (j : Int) + 1).tmod (n : Int)).toNat) := by
    apply List.map_congr_left
    intro a _
    have hadd : k + 1 + (a : Int) = k + (a : Int) + 1 := by ring
    rw [hadd]
  have hcast : k + ((1 : Nat) : Int) = k + 1 := by norm_num
  rw [scanTunnels, scanFrom_eq_scanOrder healthy k n n 1, hcast,
    scanOrder_eq_range_map n n (k + 1), hlist]
  exact ⟨rfl, rfl⟩

/-! ## C6 — no healthy tunnel: abort without mutation -/

/-- `findIndex` never returns anything below `-1`. -/
theorem findIndexInt_ge_neg_one (l : List String) (t : String) :
    -1 ≤ findIndexInt l t := by
  rw [findIndexInt]
  cases l.findIdx? fun c => c == t with
  | none => simp
  | some i =>
    simp only [Int.reduceNeg]
    omega

/-- Every entry of `scanOrder n base fuel` is below `n` when `base` is
nonnegative and `n` is positive. -/
theorem scanOrder_mem_lt (n : Nat) (hn : 0 < n) :
    ∀ (fuel : Nat) (base : Int), 0 ≤ base → ∀ x ∈ scanOrder n base fuel, x < n := by
  intro fuel
  induction fuel with
  | zero => intro base _ x hx; exact absurd hx (by simp [scanOrder])
  | succ f ih =>
    intro base hbase x hx
    rw [show scanOrder n base (f + 1) =
        (base.tmod (n : Int)).toNat :: scanOrder n (base + 1) f from rfl] at hx
    rcases List.mem_cons.mp hx with hx | hx
    · subst hx
      have hpos : (0 : Int) < (n : Int) := by exact_mod_cast hn
      have hlt := Int.tmod_lt_of_pos base hpos
      have hge := Int.tmod_nonneg ((n : Int)) hbase
      omega
    · exact ih (base + 1) (by omega) x hx

/-- If every index below `n` is unhealthy, the scan selects nothing. -/
theorem scanTunnels_none (healthy : Nat → Bool) (k : Int) (n : Nat)
    (hk : -1 ≤ k) (hfail : ∀ j, j < n → healthy j = false) :
    (scanTunnels healthy k n).2 = none := by
  cases Nat.eq_zero_or_pos n with
  | inl h0 => subst h0; rfl
  | inr hn =>
    rw [scanTunnels, scanFrom_eq_scanOrder healthy k n n 1]
    rw [List.find?_eq_none]
    intro x hx
    have hxlt := scanOrder_mem_lt n hn n (k + ((1 : Nat) : Int)) (by push_cast; omega) x hx
    simp [hfail x hxlt]

/-- C6: for every domain that is unreachable, whose record read succeeds, and
in which every configured tunnel's health check returns false, no mutation
event (`addTunnelRule`, `updateDnsRecord`, `removeTunnelRule`) occurs in the
trace, the pass terminates in the `Aborted` outcome, and the abort
notification is emitted. -/
theorem c6_no_healthy_aborts (config : DomainConfig) (w : World) (rec : DnsRecord)
    (hr : w.reachable = false) (hd : w.dnsRecord = .ok rec)
    (hfail : ∀ t ∈ config.tunnels, w.tunnelHealthy t = false) :
    (handleDomainFailover config w).1.filter isMutation = [] ∧
    (handleDomainFailover config w).2 = .aborted ∧
    Event.notify (abortedMsg config.domain) ∈ (handleDomainFailover config w).1 := by
  have hfail' : ∀ j, j < config.tunnels.length →
      healthyAt w config.tunnels j = false := by
    intro j hj
    rw [healthyAt, List.getD_eq_getElem?_getD, List.getElem?_eq_getElem hj]
    exact hfail _ (List.getElem_mem hj)
  have hscan : (scanTunnels (healthyAt w config.tunnels) (currentTunnelIndex config rec)
      config.tunnels.length).2 = none :=
    scanTunnels_none _ _ _ (findIndexInt_ge_neg_one _ _) hfail'
  have hchk := filter_checkedEvents_eq_nil isMutation (fun t => rfl) config w rec
  simp only [handleDomainFailover, hr, hd, hscan, Bool.false_eq_true, if_false]
  refine ⟨?_, by simp, ?_⟩
  · simp [List.filter_cons, List.filter_append, hchk, isMutation]
  · simp

/-- C6 witness: the scenario configuration with every tunnel down. -/
theorem c6_witness :
    (handleDomainFailover exampleConfig exampleAllDownWorld).1.filter isMutation = [] ∧
    (handleDomainFailover exampleConfig exampleAllDownWorld).2 = .aborted ∧
    Event.notify (abortedMsg "a.example.com") ∈
      (handleDomainFailover exampleConfig exampleAllDownWorld).1 :=
  c6_no_healthy_aborts exampleConfig exampleAllDownWorld exampleRecord rfl rfl
    (fun _ _ => rfl)

/-! ## C1 — notifications on a completed pass -/

/-- C1 counterexample: on the spec's own scenario (`a.example.com`, tunnels
`[T1, T2, T3]`, DNS content matching `T1`'s CNAME, probe unreachable, only
`T3` healthy, all mutations succeeding) the pass completes but emits two
notifications, not exactly one: the code notifies `'… Initiating failover.'`
as soon as the probe fails, before any mutation, and then the completion
message — which names only the new tunnel's CNAME, not the previous tunnel. -/
theorem c1_counterexample :
    (handleDomainFailover exampleConfig exampleWorld).2 =
      .completed "T3.cfargotunnel.com" ∧
    ((handleDomainFailover exampleConfig exampleWorld).1.filter isNotify).length = 2 ∧
    ((handleDomainFailover exampleConfig exampleWorld).1.filter isNotify).length ≠ 1 ∧
    (handleDomainFailover exampleConfig exampleWorld).1.getLast? =
      some (.notify "Failover completed for a.example.com to T3.cfargotunnel.com") := by
  refine ⟨by decide, by decide, by decide, by decide⟩

/-- C1 amended: for every domain whose pass terminates in the `Completed`
outcome (probe unreachable, record read succeeding, a healthy replacement
found by the scan, all mutations succeeding), exactly two notifications are
emitted for that domain: the initiating message sent when the domain is found
unreachable, and the completion message naming the domain and the new
tunnel's CNAME (the previous tunnel is not named); no other notification is
sent for that domain. -/
theorem c1_two_notifications (config : DomainConfig) (w : World) (rec : DnsRecord)
    (idx : Nat)
    (hr : w.reachable = false) (hd : w.dnsRecord = .ok rec)
    (hscan : (scanTunnels (healthyAt w config.tunnels) (currentTunnelIndex config rec)
      config.tunnels.length).2 = some idx)
    (ha : w.addRuleResult = .ok ()) (hu : w.updateDnsResult = .ok ())
    (hrm : w.removeRuleResult = .ok ()) :
    (handleDomainFailover config w).2 =
      .completed ((tunnelCnames config).getD idx "") ∧
    (handleDomainFailover config w).1.filter isNotify =
      [.notify (initiatingMsg config.domain),
       .notify (completedMsg config.domain ((tunnelCnames config).getD idx ""))] := by
  have hchk := filter_checkedEvents_eq_nil isNotify (fun _ => rfl) config w rec
  simp only [handleDomainFailover, hr, hd, hscan, ha, hu, hrm, Bool.false_eq_true, if_false]
  by_cases hk : currentTunnelIndex config rec == -1
  · simp [hk, List.filter_append, List.filter_cons, hchk, isNotify]
  · simp [hk, List.filter_append, List.filter_cons, hchk, isNotify]

/-- C1 witness: the spec scenario, where the scan selects index 2 (`T3`). -/
theorem c1_witness :
    (handleDomainFailover exampleConfig exampleWorld).2 =
      .completed ((tunnelCnames exampleConfig).getD 2 "") ∧
    (handleDomainFailover exampleConfig exampleWorld).1.filter isNotify =
      [.notify (initiatingMsg exampleConfig.domain),
       .notify (completedMsg exampleConfig.domain ((tunnelCnames exampleConfig).getD 2 ""))] :=
  c1_two_notifications exampleConfig exampleWorld exampleRecord 2 rfl rfl (by decide)
    rfl rfl rfl

end DnsFailover
